import Mathlib

/-!
Verification development for the hardware-module generation pass of the
AutoSA polyhedral-to-hardware compiler (`src/autosa_codegen.cpp`).

The development shallowly embeds the functions of that file that decide
module validity (`is_module_valid`, `internal_group_in_out_overlap`),
module generation (`sa_io_module_gen`, `sa_pe_module_gen`,
`generate_hw_modules`), schedule construction helpers
(`set_schedule_eq` / `_ge` / `_le` / `_modulo`), buffer location and
coalescing logic of `generate_default_io_module_schedule`, and the final
module reordering (`hw_module_reorder`).

isl objects are modelled as follows: `isl_bool` is an `Int` with the C
encoding (error = -1, false = 0, true = 1; a C `if` treats any nonzero
value as true); a nullable isl relation/set is an `Option` of a concrete
finite relation (`List (Int × Int)`) or set (`List Int`); every isl
operation propagates `none` (NULL), exactly as isl propagates NULL
through its C API.  Purely polyhedral constructions whose results feed
the embedded control flow (schedule prefixes, the lexicographic
successor map, the tagged flow-dependence relation, parameter contexts)
enter the model as explicit inputs of an `OverlapWorld` record, with a
comment naming the source lines each field stands for.
-/

/-! ## isl booleans (C encoding) -/

/-- `isl_bool_error` = -1 (indeterminate). -/
def isl_bool_error : Int := -1

/-- `isl_bool_false` = 0. -/
def isl_bool_false : Int := 0

/-- `isl_bool_true` = 1. -/
def isl_bool_true : Int := 1

/-! ## Nullable union maps and union sets -/

/-- A concrete model of an `isl_union_map`: a finite relation on integer
codes of (tagged) iteration-domain points / array elements. -/
abbrev UMap := List (Int × Int)

/-- A concrete model of an `isl_union_set`. -/
abbrev USet := List Int

/-- `isl_union_map_is_empty`: error (-1) on NULL, else emptiness. -/
def umap_is_empty : Option UMap → Int
  | none => isl_bool_error
  | some l => if l = [] then isl_bool_true else isl_bool_false

/-- `isl_union_map_intersect`, NULL-propagating. -/
def umap_intersect : Option UMap → Option UMap → Option UMap
  | some a, some b => some (a.filter (fun p => p ∈ b))
  | _, _ => none

/-- `isl_union_map_subtract`, NULL-propagating. -/
def umap_subtract : Option UMap → Option UMap → Option UMap
  | some a, some b => some (a.filter (fun p => p ∉ b))
  | _, _ => none

/-- `isl_union_map_apply_range`, NULL-propagating composition. -/
def umap_apply_range : Option UMap → Option UMap → Option UMap
  | some a, some b =>
      some ((a.map (fun p =>
        (b.filter (fun q => q.1 = p.2)).map (fun q => (p.1, q.2)))).flatten)
  | _, _ => none

/-- `isl_union_map_reverse`, NULL-propagating. -/
def umap_reverse : Option UMap → Option UMap
  | some a => some (a.map (fun p => (p.2, p.1)))
  | none => none

/-- `isl_union_map_domain`, NULL-propagating. -/
def umap_domain : Option UMap → Option USet
  | some a => some (a.map (·.1))
  | none => none

/-- `isl_union_map_range`, NULL-propagating. -/
def umap_range : Option UMap → Option USet
  | some a => some (a.map (·.2))
  | none => none

/-- `isl_union_map_intersect_domain`, NULL-propagating. -/
def umap_intersect_domain : Option UMap → Option USet → Option UMap
  | some a, some s => some (a.filter (fun p => p.1 ∈ s))
  | _, _ => none

/-- `isl_union_map_intersect_range`, NULL-propagating. -/
def umap_intersect_range : Option UMap → Option USet → Option UMap
  | some a, some s => some (a.filter (fun p => p.2 ∈ s))
  | _, _ => none

/-- `isl_union_map_intersect_params` with a parameter-context set: the
model keeps the relation unchanged on a non-NULL context (the embedded
relations carry no symbolic parameters) and propagates NULL. -/
def umap_intersect_params : Option UMap → Option USet → Option UMap
  | some a, some _ => some a
  | _, _ => none

/-- `isl_union_map_universe` applied to a map: replaces the map by the
universal relation of its space.  The universal relation of the relevant
space is supplied explicitly (second argument); NULL propagates. -/
def umap_universe_of : Option UMap → UMap → Option UMap
  | some _, u => some u
  | none, _ => none

/-- `wrapped_reference_to_access(tag_set, tagged)` (helper defined in the
communication-analysis unit of the repository): recovers from a set of
wrapped reference elements the accesses of the tagged access relation
whose reference tag lies in the set; NULL propagates. -/
def wrapped_reference_to_access : Option USet → Option UMap → Option UMap
  | some ts, some tagged => some (tagged.filter (fun p => p.1 ∈ ts))
  | _, _ => none

/-! ## Enumerations of the data model -/

/-- `enum autosa_group_type`: PE-local, I/O, or drain group. -/
inductive GroupType | pe | io | drain
deriving DecidableEq

/-- `enum autosa_io_type`: exterior vs. interior I/O. -/
inductive IOType | ext | int
deriving DecidableEq

/-- `enum autosa_array_type`: external (off-chip) vs. intermediate array. -/
inductive ArrayType | ext | int
deriving DecidableEq

/-- Dependence classification (`autosa_dep_type`); the analyzer only
distinguishes read-after-read from the rest. -/
inductive DepType | rar | raw | war | waw
deriving DecidableEq

/-- `enum autosa_io_dir`: the IO_NULL / IO_IN / IO_OUT / IO_INOUT flags. -/
inductive IODir | null | dIn | dOut | dInOut
deriving DecidableEq

/-- `enum autosa_module_type`: PE_MODULE / IO_MODULE / DRAIN_MODULE. -/
inductive ModuleType | pe | io | drain
deriving DecidableEq

/-- One `autosa_io_info` entry of a statement access: its I/O type, its
dependence-direction vector and the type of the associated dependence. -/
structure IOInfo where
  io_type : IOType
  dir : List Int
  dep_type : DepType
deriving DecidableEq

/-- An `autosa_stmt_access` member reference: the list of its io_info
entries (`ref->io_info[0..n_io_info)`). -/
structure StmtAccess where
  io_info : List IOInfo
deriving DecidableEq

/-- A per-level staging-memory descriptor (`autosa_array_tile`): its
schedule depth, number of dimensions `n`, and the per-dimension extents
`bound[i].size`. -/
structure Tile where
  depth : Nat
  n : Nat
  bound : List Int
deriving DecidableEq

/-- An `autosa_io_buffer`: an optional tile and a data-packing width. -/
structure IOBuffer where
  tile : Option Tile
  n_lane : Int
deriving DecidableEq

/-- The fields of `autosa_array_ref_group` that the embedded functions
read: group kind, I/O kind, direction vector, member references, I/O
hierarchy depth `io_level`, `space_dim`, the per-level buffers
(`io_buffers[0..io_level)`), packing width `n_lane`, the owning local
array's `array_type`, and the two direction flags. -/
structure GroupModel where
  group_type : GroupType
  io_type : IOType
  dir : List Int
  refs : List StmtAccess
  io_level : Nat
  space_dim : Nat
  io_buffers : List IOBuffer
  n_lane : Int
  array_type : ArrayType
  pe_io_dir : IODir
  array_io_dir : IODir
deriving DecidableEq

/-! ## `internal_group_in_out_overlap` (lines 31-141)

The polyhedral constructions of lines 52-96 (schedule prefix, the
lexicographic-successor map `lt`, the universe of wrapped group
references of lines 101-108) are inputs of the world record; the
relational plumbing and the tri-state control flow of lines 92-141 are
embedded operation by operation. -/

/-- The inputs of `internal_group_in_out_overlap`:
* `prefixSched` — the tagged prefix-schedule relation (lines 57-75);
* `lt` — the lexicographic next-iteration map on schedule points
  (lines 79-90);
* `tagged_dep_flow` — `prog->scop->tagged_dep_flow`;
* `tagged` — the group's tagged access relation (line 62);
* `accessRel` — the group's access relation after
  `remove_local_accesses_group_flow` (lines 61-65);
* `groupRefDom` — the universe of wrapped `[D -> ref]` elements of the
  group (lines 101-108);
* `context` — `prog->scop->context` (line 113);
* `extUniv` — the universal relation of the external-access space used
  by `isl_union_map_universe` at line 131. -/
structure OverlapWorld where
  prefixSched : Option UMap
  lt : Option UMap
  tagged_dep_flow : Option UMap
  tagged : Option UMap
  accessRel : Option UMap
  groupRefDom : Option USet
  context : Option USet
  extUniv : UMap

/-- Lines 92-98: `overlap` = prefix ∘ lt ∘ prefix⁻¹ intersected with the
tagged flow dependences. -/
def overlap_rel (w : OverlapWorld) : Option UMap :=
  umap_intersect
    (umap_apply_range (umap_apply_range w.prefixSched w.lt)
      (umap_reverse w.prefixSched))
    w.tagged_dep_flow

/-- Lines 101-131: the `external` relation.  `emptyFlag` is the result of
the emptiness test on `overlap` (line 99): on error the relation is freed
(NULL), on empty it is replaced by its universe. -/
def external_rel (w : OverlapWorld) (read : Bool) (emptyFlag : Int) :
    Option UMap :=
  let ext0 := if read then umap_intersect_range w.tagged_dep_flow w.groupRefDom
              else umap_intersect_domain w.tagged_dep_flow w.groupRefDom
  let ext1 := umap_intersect_params ext0 w.context
  let ext2 := umap_subtract ext1 (overlap_rel w)
  let ext3 := if read then wrapped_reference_to_access (umap_range ext2) w.tagged
              else wrapped_reference_to_access (umap_domain ext2) w.tagged
  if emptyFlag < 0 then none
  else if emptyFlag ≠ 0 then umap_universe_of ext3 w.extUniv
  else ext3

/-- Line 133: the group accesses not accounted for by the overlap. -/
def igioo_access_final (w : OverlapWorld) (read : Bool) : Option UMap :=
  umap_intersect w.accessRel
    (external_rel w read (umap_is_empty (overlap_rel w)))

/-- Lines 134-140 of `internal_group_in_out_overlap`: the final emptiness
test and return.  The C source returns `isl_bool_true` when the tested
value is nonzero — which includes the error value -1 of an indeterminate
emptiness test, since C treats any nonzero value as true. -/
def internal_group_in_out_overlap (w : OverlapWorld) (read : Bool) : Int :=
  if umap_is_empty (igioo_access_final w read) ≠ 0 then isl_bool_true
  else isl_bool_false

/-! ## `is_module_valid` (lines 149-185) -/

/-- Lines 160-171: `external_group` stays 1 iff every io_info entry of
every member reference that matches the group's io_type and direction
vector has dependence type read-after-read. -/
def external_group_check (g : GroupModel) : Bool :=
  g.refs.all (fun r => r.io_info.all (fun info =>
    !(info.io_type == g.io_type && info.dir == g.dir) ||
      info.dep_type == DepType.rar))

/-- `is_module_valid` (lines 149-185): PE groups are always valid;
external (all-RAR) groups are valid for read and invalid for write;
otherwise the overlap analyzer decides (any nonzero result — true or
error — counts as overlap in the C `if`). -/
def is_module_valid (g : GroupModel) (w : OverlapWorld) (read : Bool) :
    Int :=
  if g.group_type = GroupType.pe then isl_bool_true
  else if external_group_check g then
    (if read then isl_bool_true else isl_bool_false)
  else if internal_group_in_out_overlap w read ≠ 0 then isl_bool_false
  else isl_bool_true

/-! ## Schedule constraint algebra (lines 268-515)

A band node is modelled by its member count `d` and its partial schedule
`sched : α → Nat → Int` on the (universe) iteration domain `α`; the
`n` named parameters are modelled by a valuation `p : Nat → Int`.  A
constructed set is the Boolean membership predicate of its points; a
NULL node propagates as `none`. -/

/-- A schedule band node: `isl_schedule_node_band_n_member` and the
partial schedule. -/
structure BandNode (α : Type) where
  d : Nat
  sched : α → Nat → Int

/-- `parameter_vector` (lines 273-315): the multi-aff whose components
are the `n` named parameters. -/
def parameter_vector (n : Nat) (p : Nat → Int) : List Int :=
  (List.range n).map p

/-- The zero multi-aff on `n_zero` dimensions (`isl_multi_aff_zero` of
lines 344/390/458/501). -/
def zero_ma (nzero : Nat) : List Int :=
  List.replicate nzero 0

/-- The band's partial schedule as a multi union pw aff
(`isl_schedule_node_band_get_partial_schedule`). -/
def band_mupa {α : Type} (b : BandNode α) (x : α) : List Int :=
  (List.range b.d).map (b.sched x)

/-- `isl_multi_union_pw_aff_range_product`: concatenation of components. -/
def range_product (u v : List Int) : List Int := u ++ v

/-- `isl_multi_union_pw_aff_sub`: componentwise subtraction. -/
def mupa_sub (u v : List Int) : List Int := List.zipWith (· - ·) u v

/-- `isl_multi_union_pw_aff_mod_multi_val`: componentwise modulo (isl's
nonnegative residue for positive moduli, `Int.emod`). -/
def mupa_mod (u mv : List Int) : List Int := List.zipWith (· % ·) u mv

/-- `isl_multi_union_pw_aff_zero_union_set`: the set where every
component vanishes. -/
def zero_union_set (u : List Int) : Bool := u.all (fun c => c = 0)

/-- `isl_multi_union_pw_aff_nonneg_union_set`: the set where every
component is nonnegative. -/
def nonneg_union_set (u : List Int) : Bool := u.all (fun c => 0 ≤ c)

/-- `set_schedule_eq` (lines 480-515): equate the band's schedule to the
trailing parameters, the leading `n - d` parameters to zero.  NULL node
propagates (line 489-490); an empty name list returns the universe
domain (line 492-493). -/
def set_schedule_eq {α : Type} (node : Option (BandNode α)) (n : Nat)
    (p : Nat → Int) : Option (α → Bool) :=
  match node with
  | none => none
  | some b =>
    if n = 0 then some (fun _ => true)
    else
      some (fun x =>
        zero_union_set
          (mupa_sub (range_product (zero_ma (n - b.d)) (band_mupa b x))
            (parameter_vector n p)))

/-- `set_schedule_ge` (lines 323-361): the set where
`(0^{n-d} ++ sched) - params` is componentwise nonnegative. -/
def set_schedule_ge {α : Type} (node : Option (BandNode α)) (n : Nat)
    (p : Nat → Int) : Option (α → Bool) :=
  match node with
  | none => none
  | some b =>
    if n = 0 then some (fun _ => true)
    else
      some (fun x =>
        nonneg_union_set
          (mupa_sub (range_product (zero_ma (n - b.d)) (band_mupa b x))
            (parameter_vector n p)))

/-- `set_schedule_le` (lines 369-407): the set where
`params - (0^{n-d} ++ sched)` is componentwise nonnegative (line 404
subtracts in the opposite order from `set_schedule_ge`). -/
def set_schedule_le {α : Type} (node : Option (BandNode α)) (n : Nat)
    (p : Nat → Int) : Option (α → Bool) :=
  match node with
  | none => none
  | some b =>
    if n = 0 then some (fun _ => true)
    else
      some (fun x =>
        nonneg_union_set
          (mupa_sub (parameter_vector n p)
            (range_product (zero_ma (n - b.d)) (band_mupa b x))))

/-- `set_schedule_modulo` (lines 433-472): equate the trailing
parameters to the band's schedule modulo the sizes (the size array is
consumed from offset `n_zero`, line 452), the leading parameters to
zero. -/
def set_schedule_modulo {α : Type} (node : Option (BandNode α)) (n : Nat)
    (p : Nat → Int) (size : Nat → Int) : Option (α → Bool) :=
  match node with
  | none => none
  | some b =>
    if n = 0 then some (fun _ => true)
    else
      some (fun x =>
        zero_union_set
          (mupa_sub
            (range_product (zero_ma (n - b.d))
              (mupa_mod (band_mupa b x)
                ((List.range b.d).map (fun j => size (n - b.d + j)))))
            (parameter_vector n p)))

/-! ## Buffer location and coalescing
(`generate_default_io_module_schedule`, lines 2043-2391, and
`generate_io_module_inter_trans`, lines 1310-1394) -/

/-- The buffer-scan loop `for (i = io_level; i >= 1; i--) if
(bufs[i-1]->tile) break;` (lines 2163-2167 / 1311-1315): the value of
`i` when the loop exits — the highest level `≤ io_level` holding a tile,
or `0` when none does. -/
def locate_level (bufs : List IOBuffer) : Nat → Nat
  | 0 => 0
  | i + 1 =>
    if (bufs[i]?.map (fun b => b.tile.isSome)).getD false then i + 1
    else locate_level bufs i

/-- The `buf` pointer when the scan loop exits: the buffer at the level
found, or — when the loop falls through — the last buffer assigned,
`io_buffers[0]`.  `buf` is initialised to NULL (line 2063), so a zero
`io_level` leaves it NULL. -/
def locate_buffer (bufs : List IOBuffer) (io_level : Nat) :
    Option IOBuffer :=
  if io_level = 0 then none
  else
    match locate_level bufs io_level with
    | 0 => bufs[0]?
    | j + 1 => bufs[j]?

/-- Lines 2168-2173 / 1316-1321: `is_buffer` degrades to 0 when the
located buffer is not at the module's own level (the tile was optimized
away upstream). -/
def degrade_is_buffer (bufs : List IOBuffer) (io_level : Nat)
    (is_buffer : Bool) : Bool :=
  if is_buffer then
    (if locate_level bufs io_level ≠ io_level then false else true)
  else false

/-- Line 2198 (`autosa_tree_move_down_to_depth(node, buf->tile->depth,
...)`) dereferences the located buffer's tile unconditionally — before
the `if (!buf->tile)` guard of line 2200 is reached.  `none` models a
NULL-pointer dereference. -/
def buffer_move_depth (bufs : List IOBuffer) (io_level : Nat) :
    Option Nat :=
  match locate_buffer bufs io_level with
  | none => none
  | some buf =>
    match buf.tile with
    | none => none
    | some t => some t.depth

/-- The `(coalesce_depth, coalesce_bound)` pair of a buffered transfer
statement (lines 2223-2229 / 1376-1382): the bound is the innermost tile
extent `tile->bound[tile->n - 1].size` divided (C integer division) by
the packing width; a bound of at most 1 forces the depth to -1. -/
def compute_coalesce (sched_depth tile_n : Nat) (innermost_extent n_lane : Int) :
    Int × Int :=
  let coalesce_depth : Int := (sched_depth : Int) + (tile_n : Int) - 1
  let coalesce_bound : Int := Int.tdiv innermost_extent n_lane
  if coalesce_bound ≤ 1 then (-1, coalesce_bound)
  else (coalesce_depth, coalesce_bound)

/-! ## Direction-flag updates

The same two conditional-move updates appear at lines 2540/2624
(`array_io_dir`, in `sa_io_module_gen`), lines 2964-2971
(`pe_io_dir`, in `add_pe_ext_io_copies_stmt`) and lines 3147-3152
(`pe_io_dir`, in `add_pe_int_io_copies`). -/

/-- The IN-classified (read) update:
`dir = (dir == IO_OUT) ? IO_INOUT : IO_IN`. -/
def io_dir_update_read (d : IODir) : IODir :=
  if d = IODir.dOut then IODir.dInOut else IODir.dIn

/-- The OUT-classified (write) update:
`dir = (dir == IO_IN) ? IO_INOUT : IO_OUT`. -/
def io_dir_update_write (d : IODir) : IODir :=
  if d = IODir.dIn then IODir.dInOut else IODir.dOut

/-- A sequence of direction updates applied in program order (`true` =
IN-classified, `false` = OUT-classified).  For `pe_io_dir`,
`sa_pe_module_gen` performs one update per member reference with a
nonempty transfer relation: first the write pass, then the read pass
(lines 3606-3615). -/
def apply_io_dir_updates (d : IODir) (us : List Bool) : IODir :=
  us.foldl (fun d r => if r then io_dir_update_read d else io_dir_update_write d) d

/-- The lattice order NULL < IN, OUT < INOUT that the specification
asserts the updates respect. -/
def io_dir_le : IODir → IODir → Prop
  | IODir.null, _ => True
  | IODir.dIn, IODir.dIn => True
  | IODir.dIn, IODir.dInOut => True
  | IODir.dOut, IODir.dOut => True
  | IODir.dOut, IODir.dInOut => True
  | IODir.dInOut, IODir.dInOut => True
  | _, _ => False

instance : DecidablePred (fun p : IODir × IODir => io_dir_le p.1 p.2) := by
  intro p
  rcases p with ⟨a, b⟩
  cases a <;> cases b <;> simp [io_dir_le] <;> infer_instance

instance (a b : IODir) : Decidable (io_dir_le a b) := by
  cases a <;> cases b <;> simp [io_dir_le] <;> infer_instance

/-! ## `sa_io_module_gen` (lines 2457-2695) -/

/-- The fields of a generated `autosa_hw_module` that the embedded
claims read: its type, direction (`in`), hierarchy level, and the
filter/buffer flags. -/
structure HWModule where
  mtype : ModuleType
  isIn : Bool
  level : Nat
  is_filter : Bool
  is_buffer : Bool
deriving DecidableEq

/-- Lines 2552-2555 / 2636-2639: the innermost level of a group's module
chain — 1 for interior I/O, else 2 (level 1 is merged into the PEs). -/
def innermost_level (g : GroupModel) : Nat :=
  if g.io_type = IOType.int then 1 else 2

/-- Lines 2563-2566 / 2641-2644: all modules except the outermost are
filters. -/
def classify_is_filter (i outermost : Nat) : Bool :=
  decide (i ≠ outermost)

/-- Lines 2568-2589 (copy-in pass): the buffer flag from group kind,
array kind and I/O kind.  `sa_io_module_gen` is invoked only on I/O and
drain groups, so the PE case (in which the C variable stays
uninitialised) is mapped to `false`. -/
def classify_is_buffer_in (g : GroupModel) (i innermost : Nat) : Bool :=
  match g.group_type with
  | GroupType.drain => i == innermost
  | GroupType.io =>
    match g.array_type with
    | ArrayType.int =>
      match g.io_type with
      | IOType.ext => i == innermost
      | IOType.int => false
    | ArrayType.ext => i == innermost
  | GroupType.pe => false

/-- Lines 2645-2659 (copy-out pass). -/
def classify_is_buffer_out (g : GroupModel) (i innermost : Nat) : Bool :=
  match g.group_type with
  | GroupType.drain => i == innermost
  | GroupType.io =>
    match g.io_type with
    | IOType.int => false
    | IOType.ext => i == innermost
  | GroupType.pe => false

/-- Lines 2591-2597 / 2661-2667: the two-level-buffering policy forces
the buffer flag at the outermost module. -/
def apply_two_level (two_level : Bool) (i outermost : Nat) (b : Bool) : Bool :=
  if two_level && i == outermost then true else b

/-- The module generated for level `i` (lines 2599-2618 / 2669-2688),
with the final flag values stored on the module by
`generate_io_module_by_type`: the filter-and-buffer path hard-sets both
flags to 1 (lines 1954-1955), the default path stores the input filter
flag and the possibly degraded buffer flag (lines 2370-2371 after lines
2163-2173). -/
def module_of_level (g : GroupModel) (two_level : Bool) (read : Bool)
    (i : Nat) : HWModule :=
  let outermost := g.io_level
  let innermost := innermost_level g
  let f := classify_is_filter i outermost
  let b0 := if read then classify_is_buffer_in g i innermost
            else classify_is_buffer_out g i innermost
  let b1 := apply_two_level two_level i outermost b0
  let bFinal := if f && b1 then true else degrade_is_buffer g.io_buffers i b1
  { mtype := if g.group_type = GroupType.drain then ModuleType.drain
             else ModuleType.io
    isIn := read
    level := i
    is_filter := f
    is_buffer := bFinal }

/-- The levels visited by the copy-in loop (line 2541):
`io_level, io_level - 1, ..., 1`. -/
def levels_desc (io_level : Nat) : List Nat :=
  (List.range io_level).map (fun k => io_level - k)

/-- The levels visited by the copy-out loop (line 2625): `1, ..., io_level`. -/
def levels_asc (io_level : Nat) : List Nat :=
  (List.range io_level).map (fun k => k + 1)

/-- The copy-in pass of `sa_io_module_gen` (lines 2541-2619): one module
per level in `[innermost, outermost]`, visited outermost first. -/
def sa_io_module_gen_in (g : GroupModel) (two_level : Bool) : List HWModule :=
  (levels_desc g.io_level).filterMap (fun i =>
    if innermost_level g ≤ i then some (module_of_level g two_level true i)
    else none)

/-- The copy-out pass of `sa_io_module_gen` (lines 2625-2689), innermost
first. -/
def sa_io_module_gen_out (g : GroupModel) (two_level : Bool) : List HWModule :=
  (levels_asc g.io_level).filterMap (fun i =>
    if innermost_level g ≤ i then some (module_of_level g two_level false i)
    else none)

/-- `sa_io_module_gen` (lines 2457-2695): the generated module list.
Each pass runs under `in && is_module_valid(..., 1)` resp.
`out && is_module_valid(..., 0)` (lines 2539, 2623); the C `if` treats
any nonzero `isl_bool` as true. -/
def sa_io_module_gen (g : GroupModel) (w : OverlapWorld) (two_level : Bool)
    (inFlag outFlag : Bool) : List HWModule :=
  (if inFlag = true ∧ is_module_valid g w true ≠ 0 then
    sa_io_module_gen_in g two_level
  else []) ++
  (if outFlag = true ∧ is_module_valid g w false ≠ 0 then
    sa_io_module_gen_out g two_level
  else [])

/-- The `array_io_dir` updates performed by `sa_io_module_gen`
(line 2540 on a generated copy-in pass, line 2624 on a generated
copy-out pass). -/
def sa_io_module_gen_array_dir (g : GroupModel) (w : OverlapWorld)
    (inFlag outFlag : Bool) : IODir :=
  let d1 := if inFlag = true ∧ is_module_valid g w true ≠ 0 then
              io_dir_update_read g.array_io_dir
            else g.array_io_dir
  if outFlag = true ∧ is_module_valid g w false ≠ 0 then
    io_dir_update_write d1
  else d1

/-! ## `sa_pe_module_gen` (lines 3555-3700) and `generate_hw_modules`
(lines 4560-4616) -/

/-- The fields of `autosa_local_array_info` the embedded functions read:
the array kind, its I/O groups (each paired with the overlap-analyzer
world of its validity test) and its optional drain group. -/
structure LocalArrayModel where
  array_type : ArrayType
  io_groups : List (GroupModel × OverlapWorld)
  drain_group : Option (GroupModel × OverlapWorld)

/-- The dummy-module generation loop of `sa_pe_module_gen`
(lines 3674-3697): arrays of intermediate type are skipped entirely
(lines 3678-3679), and for the remaining arrays a dummy module is
generated for exactly the I/O groups whose `pe_io_dir` is IO_INOUT
(lines 3682-3683). -/
def pe_dummy_groups (arrays : List LocalArrayModel) : List GroupModel :=
  arrays.flatMap (fun a =>
    if a.array_type = ArrayType.int then []
    else (a.io_groups.map Prod.fst).filter
      (fun gr => gr.pe_io_dir == IODir.dInOut))

/-- `sa_pe_module_gen`: the PE module (typed PE_MODULE, lines 3662-3664)
together with the list of groups receiving a PE dummy companion module. -/
def sa_pe_module_gen (arrays : List LocalArrayModel) :
    HWModule × List GroupModel :=
  ({ mtype := ModuleType.pe, isIn := false, level := 0,
     is_filter := false, is_buffer := false },
   pe_dummy_groups arrays)

/-- `hw_module_reorder` (lines 3713-3753): the scans copy the copy-in
I/O modules, then the element at index 0 (unconditionally, as the PE
module, line 3730), then the copy-out I/O modules, then the drain
modules.  PE-typed modules match none of the three scans. -/
def hw_module_reorder (modules : List HWModule) : List HWModule :=
  modules.filter (fun m => m.mtype == ModuleType.io && m.isIn) ++
  (match modules with
   | [] => []
   | m :: _ => [m]) ++
  modules.filter (fun m => m.mtype == ModuleType.io && !m.isIn) ++
  modules.filter (fun m => m.mtype == ModuleType.drain)

/-- `generate_hw_modules` before the reorder (lines 4560-4608): slot 0
holds the PE module (line 4608), followed by the I/O modules of every
array's I/O groups (generated with in = out = 1, line 4575) and then the
drain modules (generated with in = 0, out = 1, line 4594). -/
def generate_hw_modules (two_level : Bool) (arrays : List LocalArrayModel) :
    List HWModule :=
  (sa_pe_module_gen arrays).1 ::
  (arrays.flatMap (fun a =>
      a.io_groups.flatMap (fun gw => sa_io_module_gen gw.1 gw.2 two_level true true)) ++
   arrays.flatMap (fun a =>
      match a.drain_group with
      | none => []
      | some gw => sa_io_module_gen gw.1 gw.2 two_level false true))

/-! ## Concrete sample values used by witnesses and counterexamples -/

/-- A fully defined (no NULL input) overlap-analyzer world with empty
relations. -/
def w0 : OverlapWorld :=
  { prefixSched := some [], lt := some [], tagged_dep_flow := some [],
    tagged := some [], accessRel := some [], groupRefDom := some [],
    context := some [], extUniv := [] }

/-- A world whose tagged flow-dependence relation is NULL: the overlap
emptiness test of line 99 is indeterminate. -/
def wErr : OverlapWorld :=
  { prefixSched := some [(0, 0)], lt := some [(0, 0)],
    tagged_dep_flow := none, tagged := some [(0, 0)],
    accessRel := some [(0, 0)], groupRefDom := some [0],
    context := some [], extUniv := [(0, 0)] }

/-- A PE-local group. -/
def gPE : GroupModel :=
  { group_type := GroupType.pe, io_type := IOType.ext, dir := [],
    refs := [], io_level := 1, space_dim := 1, io_buffers := [],
    n_lane := 1, array_type := ArrayType.ext,
    pe_io_dir := IODir.null, array_io_dir := IODir.null }

/-- An I/O group whose only matching dependence entry is read-after-read. -/
def gRAR : GroupModel :=
  { group_type := GroupType.io, io_type := IOType.ext, dir := [1],
    refs := [⟨[⟨IOType.ext, [1], DepType.rar⟩]⟩],
    io_level := 2, space_dim := 2, io_buffers := [],
    n_lane := 1, array_type := ArrayType.ext,
    pe_io_dir := IODir.null, array_io_dir := IODir.null }

/-! ## C1 -/

/-- A Boolean guard identity used to read off the scan of lines 160-171. -/
lemma bool_guard_iff (a b c : Bool) :
    (!(a && b) || c) = true ↔ (a = true → b = true → c = true) := by
  cases a <;> cases b <;> cases c <;> simp

/-- Lines 160-171 as a quantified statement: `external_group` survives
the scan iff every matching io_info entry is read-after-read. -/
lemma external_group_check_iff (g : GroupModel) :
    external_group_check g = true ↔
      ∀ r ∈ g.refs, ∀ info ∈ r.io_info,
        info.io_type = g.io_type → info.dir = g.dir →
          info.dep_type = DepType.rar := by
  simp only [external_group_check, List.all_eq_true]
  constructor
  · intro h r hr info hinfo h1 h2
    have hb := (bool_guard_iff _ _ _).mp (h r hr info hinfo)
    exact beq_iff_eq.mp (hb (beq_iff_eq.mpr h1) (beq_iff_eq.mpr h2))
  · intro h r hr info hinfo
    refine (bool_guard_iff _ _ _).mpr ?_
    intro h1 h2
    exact beq_iff_eq.mpr (h r hr info hinfo (beq_iff_eq.mp h1) (beq_iff_eq.mp h2))

/-- C1: for every array-reference group and direction: a PE-local group
is always valid (`is_module_valid` returns true); otherwise, when every
io_info entry of every member reference whose io_type and direction
vector match the group's has dependence type read-after-read, the group
is external, and `is_module_valid` returns true for read (copy-in) and
false for write (copy-out). -/
theorem C1_is_module_valid_classes (g : GroupModel) (w : OverlapWorld) :
    (g.group_type = GroupType.pe →
      is_module_valid g w true = isl_bool_true ∧
      is_module_valid g w false = isl_bool_true) ∧
    (g.group_type ≠ GroupType.pe →
      (∀ r ∈ g.refs, ∀ info ∈ r.io_info,
        info.io_type = g.io_type → info.dir = g.dir →
          info.dep_type = DepType.rar) →
      is_module_valid g w true = isl_bool_true ∧
      is_module_valid g w false = isl_bool_false) := by
  constructor
  · intro hpe
    simp [is_module_valid, hpe]
  · intro hne hall
    have hcheck : external_group_check g = true :=
      (external_group_check_iff g).mpr hall
    simp [is_module_valid, hne, hcheck]

/-- Witness for C1 at concrete inputs: a PE group is valid in both
directions, and an all-RAR I/O group is valid for read, invalid for
write. -/
theorem C1_is_module_valid_classes_witness :
    is_module_valid gPE w0 true = isl_bool_true ∧
    is_module_valid gRAR w0 true = isl_bool_true ∧
    is_module_valid gRAR w0 false = isl_bool_false := by
  have h1 := (C1_is_module_valid_classes gPE w0).1 (by decide)
  have h2 := (C1_is_module_valid_classes gRAR w0).2 (by decide) (by decide)
  exact ⟨h1.1, h2.1, h2.2⟩

/-! ## C2 -/

/-- C2 counterexample: with a NULL tagged flow-dependence relation the
emptiness test of the overlap relation (line 99) is indeterminate, yet
`internal_group_in_out_overlap` returns `isl_bool_true` — the C `if` at
line 137 treats the propagated error value -1 as true instead of
returning an indeterminate tri-state. -/
theorem C2_overlap_error_counterexample :
    umap_is_empty (overlap_rel wErr) = isl_bool_error ∧
    internal_group_in_out_overlap wErr true = isl_bool_true ∧
    internal_group_in_out_overlap wErr true ≠ isl_bool_error := by decide

/-- C2 (amended): `internal_group_in_out_overlap` never returns the
indeterminate value.  When the remaining external accesses intersected
with the group's access relation are empty it returns true, when they
are non-empty it returns false, and when the computation is
indeterminate (a NULL result reaches the final emptiness test) the test's
error value is truthy in C and the function also returns true. -/
theorem C2_overlap_tri_state (w : OverlapWorld) (read : Bool) :
    internal_group_in_out_overlap w read ≠ isl_bool_error ∧
    (igioo_access_final w read = none →
      internal_group_in_out_overlap w read = isl_bool_true) ∧
    (∀ l : UMap, igioo_access_final w read = some l →
      internal_group_in_out_overlap w read =
        (if l = [] then isl_bool_true else isl_bool_false)) := by
  rcases h : igioo_access_final w read with _ | l
  · refine ⟨?_, fun _ => ?_, fun l hl => by simp [h] at hl⟩
    · simp [internal_group_in_out_overlap, umap_is_empty, h,
        isl_bool_error, isl_bool_true, isl_bool_false]
    · simp [internal_group_in_out_overlap, umap_is_empty, h,
        isl_bool_error, isl_bool_true]
  · refine ⟨?_, fun hl => by simp [h] at hl, fun l' hl' => ?_⟩
    · by_cases hl : l = [] <;>
        simp [internal_group_in_out_overlap, umap_is_empty, h, hl,
          isl_bool_error, isl_bool_true, isl_bool_false]
    · have : l' = l := by simp [h] at hl'; exact hl'.symm
      subst this
      by_cases hl : l' = [] <;>
        simp [internal_group_in_out_overlap, umap_is_empty, h, hl,
          isl_bool_error, isl_bool_true, isl_bool_false]

/-- Witness for C2's amended theorem at a concrete input with an
indeterminate subcomputation. -/
theorem C2_overlap_tri_state_witness :
    internal_group_in_out_overlap wErr false = isl_bool_true := by
  have h := C2_overlap_tri_state wErr false
  exact h.2.1 (by decide)

/-! ## C3 / C10: the module reorder -/

/-- The three scan predicates of `hw_module_reorder` partition any list
of non-PE modules. -/
lemma reorder_filters_perm (rest : List HWModule)
    (hrest : ∀ m ∈ rest, m.mtype ≠ ModuleType.pe) :
    (rest.filter (fun m => m.mtype == ModuleType.io && m.isIn) ++
     (rest.filter (fun m => m.mtype == ModuleType.io && !m.isIn) ++
      rest.filter (fun m => m.mtype == ModuleType.drain))).Perm rest := by
  have h1 := List.filter_append_perm
    (fun m : HWModule => m.mtype == ModuleType.io && m.isIn) rest
  have h2 := List.filter_append_perm
    (fun m : HWModule => m.mtype == ModuleType.io && !m.isIn)
    (rest.filter (fun m => !(m.mtype == ModuleType.io && m.isIn)))
  rw [List.filter_filter, List.filter_filter] at h2
  have e2 : rest.filter
      (fun a => (a.mtype == ModuleType.io && !a.isIn) &&
        !(a.mtype == ModuleType.io && a.isIn)) =
      rest.filter (fun m => m.mtype == ModuleType.io && !m.isIn) := by
    refine List.filter_congr (fun m _ => ?_)
    cases hio : (m.mtype == ModuleType.io) <;> cases hin : m.isIn <;>
      simp [hio, hin]
  have e3 : rest.filter
      (fun a => (!(a.mtype == ModuleType.io && !a.isIn)) &&
        !(a.mtype == ModuleType.io && a.isIn)) =
      rest.filter (fun m => m.mtype == ModuleType.drain) := by
    refine List.filter_congr (fun m hm => ?_)
    have hne := hrest m hm
    rcases hmt : m.mtype <;> cases hin : m.isIn <;>
      simp [hmt, hin] <;> exact absurd hmt hne
  rw [e2, e3] at h2
  exact ((h2.append_left _).trans h1)

/-- With a PE-typed head, the reorder scans skip the head and the
explicit slot-0 copy places it between copy-in and copy-out modules. -/
lemma reorder_eq_of_head_pe (pe : HWModule) (rest : List HWModule)
    (hpe : pe.mtype = ModuleType.pe) :
    hw_module_reorder (pe :: rest) =
      rest.filter (fun m => m.mtype == ModuleType.io && m.isIn) ++
        pe :: (rest.filter (fun m => m.mtype == ModuleType.io && !m.isIn) ++
          rest.filter (fun m => m.mtype == ModuleType.drain)) := by
  have hb : (pe.mtype == ModuleType.io) = false := by rw [hpe]; decide
  have hd : (pe.mtype == ModuleType.drain) = false := by rw [hpe]; decide
  simp [hw_module_reorder, List.filter_cons, hb, hd]

/-- A well-formed module list (the unique PE module first) is permuted,
not altered, by the reorder. -/
lemma reorder_perm_of_precond (pe : HWModule) (rest : List HWModule)
    (hpe : pe.mtype = ModuleType.pe)
    (hrest : ∀ m ∈ rest, m.mtype ≠ ModuleType.pe) :
    (hw_module_reorder (pe :: rest)).Perm (pe :: rest) := by
  rw [reorder_eq_of_head_pe pe rest hpe]
  exact List.perm_middle.trans ((reorder_filters_perm rest hrest).cons pe)

/-- C3: for a generated module list (the single PE module at slot 0,
every other module an I/O or drain module), `hw_module_reorder` returns
the modules in the order: all copy-in I/O modules, then the PE module,
then all copy-out I/O modules, then all drain modules — and this output
is a permutation of the input. -/
theorem C3_hw_module_reorder_order (pe : HWModule) (rest : List HWModule)
    (hpe : pe.mtype = ModuleType.pe)
    (hrest : ∀ m ∈ rest, m.mtype ≠ ModuleType.pe) :
    hw_module_reorder (pe :: rest) =
      rest.filter (fun m => m.mtype == ModuleType.io && m.isIn) ++
        pe :: (rest.filter (fun m => m.mtype == ModuleType.io && !m.isIn) ++
          rest.filter (fun m => m.mtype == ModuleType.drain)) ∧
    (hw_module_reorder (pe :: rest)).Perm (pe :: rest) :=
  ⟨reorder_eq_of_head_pe pe rest hpe,
   reorder_perm_of_precond pe rest hpe hrest⟩

/-- A PE module as built by `sa_pe_module_gen`. -/
def peW : HWModule := ⟨ModuleType.pe, false, 0, false, false⟩

/-- A copy-in I/O module. -/
def ioInW : HWModule := ⟨ModuleType.io, true, 2, false, true⟩

/-- A copy-out I/O module. -/
def ioOutW : HWModule := ⟨ModuleType.io, false, 2, false, true⟩

/-- A drain module. -/
def drW : HWModule := ⟨ModuleType.drain, false, 1, false, true⟩

/-- Witness for C3 on a concrete four-module list. -/
theorem C3_hw_module_reorder_order_witness :
    hw_module_reorder [peW, ioInW, ioOutW, drW] =
      [ioInW, peW, ioOutW, drW] ∧
    (hw_module_reorder [peW, ioInW, ioOutW, drW]).Perm
      [peW, ioInW, ioOutW, drW] := by
  have h := C3_hw_module_reorder_order peW [ioInW, ioOutW, drW]
    (by decide) (by decide)
  refine ⟨?_, h.2⟩
  rw [h.1]
  decide

/-- Counting elements through a filter. -/
lemma count_filter_eq (a : HWModule) (p : HWModule → Bool)
    (l : List HWModule) :
    List.count a (l.filter p) = if p a = true then List.count a l else 0 := by
  by_cases hpa : p a = true
  · rw [List.count_filter hpa, if_pos hpa]
  · rw [if_neg hpa]
    exact List.count_eq_zero.mpr (fun hmem => hpa (List.mem_filter.mp hmem).2)

/-- Every module produced by `module_of_level` is typed IO_MODULE or
DRAIN_MODULE (lines 1945-1946 / 2361-2362), never PE_MODULE. -/
lemma module_of_level_mtype_ne_pe (g : GroupModel) (two_level : Bool)
    (read : Bool) (i : Nat) :
    (module_of_level g two_level read i).mtype ≠ ModuleType.pe := by
  simp only [module_of_level]
  split <;> simp

/-- Every module produced by `sa_io_module_gen` is typed IO_MODULE or
DRAIN_MODULE. -/
lemma sa_io_module_gen_mtype_ne_pe (g : GroupModel) (w : OverlapWorld)
    (two_level : Bool) (inFlag outFlag : Bool) :
    ∀ m ∈ sa_io_module_gen g w two_level inFlag outFlag,
      m.mtype ≠ ModuleType.pe := by
  have hgen : ∀ read : Bool, ∀ i : Nat,
      ∀ m ∈ (if innermost_level g ≤ i then
          some (module_of_level g two_level read i) else none),
        m.mtype ≠ ModuleType.pe := by
    intro read i m hm
    by_cases hle : innermost_level g ≤ i
    · rw [if_pos hle, Option.mem_def, Option.some.injEq] at hm
      exact hm ▸ module_of_level_mtype_ne_pe g two_level read i
    · rw [if_neg hle] at hm; simp at hm
  intro m hm
  rw [sa_io_module_gen, List.mem_append] at hm
  rcases hm with hm | hm
  · by_cases hc : inFlag = true ∧ is_module_valid g w true ≠ 0
    · rw [if_pos hc, sa_io_module_gen_in, List.mem_filterMap] at hm
      obtain ⟨i, _, hi⟩ := hm
      exact hgen true i m (Option.mem_def.mpr hi)
    · rw [if_neg hc] at hm; exact absurd hm (List.not_mem_nil m)
  · by_cases hc : outFlag = true ∧ is_module_valid g w false ≠ 0
    · rw [if_pos hc, sa_io_module_gen_out, List.mem_filterMap] at hm
      obtain ⟨i, _, hi⟩ := hm
      exact hgen false i m (Option.mem_def.mpr hi)
    · rw [if_neg hc] at hm; exact absurd hm (List.not_mem_nil m)

/-- C10: `hw_module_reorder` places the input's element at index 0 in
the PE position unconditionally and its scans skip PE-typed modules, so
its output is a permutation of its input exactly when the first input
module is the unique PE-typed module and every other module is an I/O or
drain module; and `generate_hw_modules` establishes this precondition by
storing the PE module at slot 0 in front of the generated I/O and drain
modules. -/
theorem C10_reorder_perm_iff :
    (∀ (pe : HWModule) (rest : List HWModule),
      (hw_module_reorder (pe :: rest)).Perm (pe :: rest) ↔
        (pe.mtype = ModuleType.pe ∧
          ∀ m ∈ rest, m.mtype ≠ ModuleType.pe)) ∧
    (∀ (two_level : Bool) (arrays : List LocalArrayModel),
      ∃ rest, generate_hw_modules two_level arrays =
          (sa_pe_module_gen arrays).1 :: rest ∧
        (sa_pe_module_gen arrays).1.mtype = ModuleType.pe ∧
        ∀ m ∈ rest, m.mtype ≠ ModuleType.pe) := by
  constructor
  · intro pe rest
    constructor
    · intro h
      have hhead : pe.mtype = ModuleType.pe := by
        by_contra hne
        have hc := h.count_eq pe
        simp only [hw_module_reorder, List.count_append, count_filter_eq] at hc
        rcases hmt : pe.mtype with _ | _ | _
        · exact hne hmt
        · cases hin : pe.isIn <;> simp [hmt, hin] at hc
        · simp [hmt] at hc
      refine ⟨hhead, fun m hm => ?_⟩
      by_contra hmp
      have hc := h.count_eq m
      have hmem : 0 < List.count m rest := List.count_pos_iff.mpr hm
      simp only [hw_module_reorder, List.count_append, count_filter_eq,
        List.count_cons] at hc
      have p1 : (m.mtype == ModuleType.io && m.isIn) = false := by
        simp [hmp]
      have p2 : (m.mtype == ModuleType.io && !m.isIn) = false := by
        simp [hmp]
      have p3 : (m.mtype == ModuleType.drain) = false := by
        simp [hmp]
      simp [p1, p2, p3] at hc
      omega
    · rintro ⟨hpe, hrest⟩
      exact reorder_perm_of_precond pe rest hpe hrest
  · intro two_level arrays
    refine ⟨_, rfl, rfl, fun m hm => ?_⟩
    rw [List.mem_append] at hm
    rcases hm with hm | hm <;> rw [List.mem_flatMap] at hm
    · obtain ⟨a, _, hma⟩ := hm
      rw [List.mem_flatMap] at hma
      obtain ⟨gw, _, hmg⟩ := hma
      exact sa_io_module_gen_mtype_ne_pe gw.1 gw.2 two_level true true m hmg
    · obtain ⟨a, _, hma⟩ := hm
      rcases hd : a.drain_group with _ | gw
      · rw [hd] at hma; exact absurd hma (List.not_mem_nil m)
      · rw [hd] at hma
        exact sa_io_module_gen_mtype_ne_pe gw.1 gw.2 two_level false true m hma

/-! ## C5: the unconditional tile dereference -/

/-- C5: the buffer lookup of `generate_default_io_module_schedule`
(lines 2163-2167) scans levels `io_level` down to 1 for the first buffer
with a non-NULL tile, and line 2198 then moves the schedule cursor down
to `buf->tile->depth` before the `if (!buf->tile)` guard of line 2200 is
evaluated; hence when no level at or below the generated level has a
tile, the scan falls through (`locate_level` = 0), `buf` is the level-1
buffer whose tile is NULL, and the depth dereference goes through a NULL
tile pointer (`none`). -/
theorem C5_buffer_scan_null_deref (bufs : List IOBuffer) (io_level : Nat)
    (h1 : 1 ≤ io_level) (h2 : io_level ≤ bufs.length)
    (h3 : ∀ i < io_level, bufs[i]?.map IOBuffer.tile = some none) :
    locate_level bufs io_level = 0 ∧
    ∃ b : IOBuffer, locate_buffer bufs io_level = some b ∧ b.tile = none ∧
      buffer_move_depth bufs io_level = none := by
  have hloc : ∀ k, k ≤ io_level → locate_level bufs k = 0 := by
    intro k
    induction k with
    | zero => intro _; rfl
    | succ j ih =>
      intro hk
      rw [locate_level]
      have hb : (bufs[j]?.map (fun b => b.tile.isSome)).getD false = false := by
        have hj := h3 j (by omega)
        rcases hj' : bufs[j]? with _ | b
        · rfl
        · rw [hj'] at hj
          simp only [Option.map_some'] at hj
          have : b.tile = none := by simpa using hj
          simp [this]
      rw [hb]
      simpa using ih (by omega)
  have h0 := hloc io_level le_rfl
  obtain ⟨b, hb⟩ : ∃ b, bufs[0]? = some b := by
    have hlen : 0 < bufs.length := by omega
    exact ⟨bufs[0], List.getElem?_eq_getElem hlen⟩
  have htile : b.tile = none := by
    have := h3 0 (by omega)
    rw [hb] at this
    simpa using this
  have hlb : locate_buffer bufs io_level = some b := by
    rw [locate_buffer, if_neg (by omega : ¬ io_level = 0), h0, hb]
  refine ⟨h0, b, hlb, htile, ?_⟩
  rw [buffer_move_depth, hlb]
  simp [htile]

/-- An all-tileless buffer list. -/
def bufsW : List IOBuffer := [⟨none, 1⟩, ⟨none, 2⟩]

/-- Witness for C5 at a concrete two-level tileless buffer list. -/
theorem C5_buffer_scan_null_deref_witness :
    locate_level bufsW 2 = 0 ∧ buffer_move_depth bufsW 2 = none := by
  have h := C5_buffer_scan_null_deref bufsW 2 (by decide) (by decide) (by decide)
  obtain ⟨h0, b, _, _, hd⟩ := h
  exact ⟨h0, hd⟩

/-! ## C6: coalescing bound and depth -/

/-- C6: for a buffered (tile-level) transfer statement, `coalesce_bound`
is the innermost tile extent divided by the packing width, and a bound
of at most 1 forces `coalesce_depth` to -1 (lines 2223-2229 and
1376-1382); with packing width 4 and innermost extent 16 the bound is 4
and the recorded depth `sched_depth + tile->n - 1` is nonnegative, while
with innermost extent 4 the bound is 1 and the depth is -1. -/
theorem C6_coalesce_bound_depth (sched_depth tile_n : Nat)
    (extent n_lane : Int) (htn : 1 ≤ tile_n) :
    (compute_coalesce sched_depth tile_n extent n_lane).2 =
      Int.tdiv extent n_lane ∧
    ((compute_coalesce sched_depth tile_n extent n_lane).2 ≤ 1 →
      (compute_coalesce sched_depth tile_n extent n_lane).1 = -1) ∧
    (compute_coalesce sched_depth tile_n 16 4 =
        ((sched_depth : Int) + (tile_n : Int) - 1, 4) ∧
      0 ≤ (compute_coalesce sched_depth tile_n 16 4).1) ∧
    compute_coalesce sched_depth tile_n 4 4 = (-1, 1) := by
  have h16 : Int.tdiv 16 4 = 4 := by decide
  have h4 : Int.tdiv 4 4 = 1 := by decide
  refine ⟨?_, ?_, ⟨?_, ?_⟩, ?_⟩
  · rw [compute_coalesce]
    split <;> rfl
  · intro h
    rw [compute_coalesce] at h ⊢
    by_cases hb : Int.tdiv extent n_lane ≤ 1
    · rw [if_pos hb]
    · rw [if_neg hb] at h
      exact absurd h hb
  · rw [compute_coalesce, h16]
    norm_num
  · rw [compute_coalesce, h16]
    norm_num
    omega
  · rw [compute_coalesce, h4]
    norm_num

/-- Witness for C6 at concrete schedule depth 2 and a 3-dimensional tile. -/
theorem C6_coalesce_bound_depth_witness :
    compute_coalesce 2 3 16 4 = (4, 4) ∧
    compute_coalesce 2 3 4 4 = (-1, 1) := by
  have h := C6_coalesce_bound_depth 2 3 16 4 (by decide)
  exact ⟨h.2.2.1.1.trans (by decide), h.2.2.2⟩

/-! ## C7: PE dummy modules -/

/-- An I/O group of an intermediate array whose PE-level direction flag
has reached IO_INOUT. -/
def gInOut : GroupModel :=
  { group_type := GroupType.io, io_type := IOType.ext, dir := [1],
    refs := [], io_level := 2, space_dim := 2, io_buffers := [],
    n_lane := 1, array_type := ArrayType.int,
    pe_io_dir := IODir.dInOut, array_io_dir := IODir.null }

/-- A local array of intermediate type holding `gInOut`. -/
def aIntArr : LocalArrayModel :=
  { array_type := ArrayType.int, io_groups := [(gInOut, w0)],
    drain_group := none }

/-- C7 counterexample: an I/O group whose `pe_io_dir` has reached
IO_INOUT but whose owning array is of intermediate type receives no PE
dummy companion module — the generation loop of `sa_pe_module_gen`
skips intermediate-typed arrays entirely (lines 3678-3679). -/
theorem C7_pe_dummy_counterexample :
    gInOut.pe_io_dir = IODir.dInOut ∧
    gInOut ∈ aIntArr.io_groups.map Prod.fst ∧
    gInOut ∉ pe_dummy_groups [aIntArr] ∧
    (sa_pe_module_gen [aIntArr]).2 = [] := by decide

/-- C7 (amended): a PE dummy companion module is generated exactly for
the I/O groups of non-intermediate (external-typed) arrays whose
PE-level direction flag has reached IO_INOUT. -/
theorem C7_pe_dummy_iff (arrays : List LocalArrayModel) (g : GroupModel) :
    g ∈ pe_dummy_groups arrays ↔
      ∃ a ∈ arrays, a.array_type ≠ ArrayType.int ∧
        g ∈ a.io_groups.map Prod.fst ∧ g.pe_io_dir = IODir.dInOut := by
  rw [pe_dummy_groups, List.mem_flatMap]
  constructor
  · rintro ⟨a, ha, hg⟩
    by_cases hint : a.array_type = ArrayType.int
    · rw [if_pos hint] at hg
      exact absurd hg (List.not_mem_nil g)
    · rw [if_neg hint, List.mem_filter] at hg
      exact ⟨a, ha, hint, hg.1, beq_iff_eq.mp hg.2⟩
  · rintro ⟨a, ha, hint, hmem, hdir⟩
    refine ⟨a, ha, ?_⟩
    rw [if_neg hint, List.mem_filter]
    exact ⟨hmem, beq_iff_eq.mpr hdir⟩

/-! ## C8: direction-flag updates -/

/-- A write-only update sequence cannot produce IN or INOUT from a state
that is neither. -/
lemma apply_updates_no_read (us : List Bool) (hus : true ∉ us) :
    ∀ d : IODir, d ≠ IODir.dIn → d ≠ IODir.dInOut →
      apply_io_dir_updates d us ≠ IODir.dIn ∧
      apply_io_dir_updates d us ≠ IODir.dInOut := by
  induction us with
  | nil => exact fun d h1 h2 => ⟨h1, h2⟩
  | cons u us ih =>
    intro d h1 h2
    have hu : u = false := by
      cases u
      · rfl
      · exact absurd (List.mem_cons_self _ _) hus
    subst hu
    have hus' : true ∉ us := fun h => hus (List.mem_cons_of_mem _ h)
    have hstep : apply_io_dir_updates d (false :: us) =
        apply_io_dir_updates (io_dir_update_write d) us := rfl
    rw [hstep, io_dir_update_write, if_neg h1]
    exact ih hus' IODir.dOut (by decide) (by decide)

/-- A read-only update sequence cannot produce OUT or INOUT from a state
that is neither. -/
lemma apply_updates_no_write (us : List Bool) (hus : false ∉ us) :
    ∀ d : IODir, d ≠ IODir.dOut → d ≠ IODir.dInOut →
      apply_io_dir_updates d us ≠ IODir.dOut ∧
      apply_io_dir_updates d us ≠ IODir.dInOut := by
  induction us with
  | nil => exact fun d h1 h2 => ⟨h1, h2⟩
  | cons u us ih =>
    intro d h1 h2
    have hu : u = true := by
      cases u
      · exact absurd (List.mem_cons_self _ _) hus
      · rfl
    subst hu
    have hus' : false ∉ us := fun h => hus (List.mem_cons_of_mem _ h)
    have hstep : apply_io_dir_updates d (true :: us) =
        apply_io_dir_updates (io_dir_update_read d) us := rfl
    rw [hstep, io_dir_update_read]
    by_cases hd : d = IODir.dOut
    · exact absurd hd h1
    · rw [if_neg hd]
      exact ih hus' IODir.dIn (by decide) (by decide)

/-- C8 counterexample: the conditional-move update is not monotone over
the NULL < IN, OUT < INOUT lattice — an IN-classified update applied at
IO_INOUT resets the flag to IO_IN (line 2967), so after the update
sequence write, read, read (one write-classified and two read-classified
copies, as the PE-module generation performs per matching reference) the
flag ends at IO_IN although both classes occurred. -/
theorem C8_direction_flag_counterexample :
    io_dir_update_read IODir.dInOut = IODir.dIn ∧
    ¬ io_dir_le IODir.dInOut (io_dir_update_read IODir.dInOut) ∧
    apply_io_dir_updates IODir.null [false, true, true] = IODir.dIn ∧
    false ∈ [false, true, true] ∧ true ∈ [false, true, true] ∧
    apply_io_dir_updates IODir.null [false, true, true] ≠ IODir.dInOut := by
  decide

/-- C8 (amended): a final value of IO_INOUT still implies that both an
IN- and an OUT-classified update occurred; for `array_io_dir` — updated
at most once per class by `sa_io_module_gen`, the IN update (line 2540)
before the OUT update (line 2624) — the flag ends at IO_INOUT exactly
when both updates fire; and each update is monotone over the direction
lattice except at IO_INOUT, where the opposite-class update resets the
flag (the updates are conditional moves, not joins). -/
theorem C8_direction_flag_updates :
    (∀ us : List Bool,
      apply_io_dir_updates IODir.null us = IODir.dInOut →
        true ∈ us ∧ false ∈ us) ∧
    (∀ (g : GroupModel) (w : OverlapWorld) (inFlag outFlag : Bool),
      sa_io_module_gen_array_dir g w inFlag outFlag =
        apply_io_dir_updates g.array_io_dir
          ((if inFlag = true ∧ is_module_valid g w true ≠ 0 then [true]
            else []) ++
           (if outFlag = true ∧ is_module_valid g w false ≠ 0 then [false]
            else []))) ∧
    (∀ doIn doOut : Bool,
      (apply_io_dir_updates IODir.null
        ((if doIn then [true] else []) ++ (if doOut then [false] else [])) =
        IODir.dInOut) ↔ (doIn = true ∧ doOut = true)) ∧
    (∀ d : IODir, d ≠ IODir.dInOut → io_dir_le d (io_dir_update_read d)) ∧
    (∀ d : IODir, d ≠ IODir.dInOut → io_dir_le d (io_dir_update_write d)) := by
  refine ⟨?_, ?_, ?_, ?_, ?_⟩
  · intro us h
    constructor
    · by_contra hin
      exact (apply_updates_no_read us hin IODir.null (by decide)
        (by decide)).2 h
    · by_contra hout
      exact (apply_updates_no_write us hout IODir.null (by decide)
        (by decide)).2 h
  · intro g w inFlag outFlag
    rw [sa_io_module_gen_array_dir]
    by_cases hin : inFlag = true ∧ is_module_valid g w true ≠ 0 <;>
      by_cases hout : outFlag = true ∧ is_module_valid g w false ≠ 0 <;>
        simp [hin, hout, apply_io_dir_updates]
  · intro doIn doOut
    cases doIn <;> cases doOut <;> decide
  · intro d hd
    cases d <;> first | decide | exact absurd rfl hd
  · intro d hd
    cases d <;> first | decide | exact absurd rfl hd

/-- Witness for C8's amended theorem: the sequence read, write reaches
IO_INOUT, and both classes indeed occur in it. -/
theorem C8_direction_flag_updates_witness :
    true ∈ [true, false] ∧ false ∈ [true, false] := by
  have h := C8_direction_flag_updates
  exact h.1 [true, false] (by decide)

/-! ## C9: characterizing the four constraint-set builders -/

/-- Pointwise zip of two maps over the same index list. -/
lemma zipWith_map_same (f : Int → Int → Int) (u v : Nat → Int)
    (l : List Nat) :
    List.zipWith f (l.map u) (l.map v) = l.map (fun j => f (u j) (v j)) := by
  induction l with
  | nil => rfl
  | cons a l ih => simp [ih]

/-- The componentwise difference of the range product against the
parameter vector, split at the zero block. -/
lemma mupa_sub_split (nz d : Nat) (u p : Nat → Int) :
    mupa_sub (range_product (zero_ma nz) ((List.range d).map u))
      (parameter_vector (nz + d) p) =
      (List.range nz).map (fun i => 0 - p i) ++
      (List.range d).map (fun j => u j - p (nz + j)) := by
  rw [parameter_vector, List.range_add, List.map_append, List.map_map,
    range_product, zero_ma, mupa_sub,
    show List.replicate nz (0 : Int) = (List.range nz).map (fun _ => (0 : Int))
      from by simp [List.map_const'],
    List.zipWith_append _ _ _ _ _ (by simp),
    zipWith_map_same, zipWith_map_same]
  simp [Function.comp]

/-- The reversed difference (parameter vector minus range product), as
built by `set_schedule_le`. -/
lemma mupa_sub_split_rev (nz d : Nat) (u p : Nat → Int) :
    mupa_sub (parameter_vector (nz + d) p)
      (range_product (zero_ma nz) ((List.range d).map u)) =
      (List.range nz).map (fun i => p i - 0) ++
      (List.range d).map (fun j => p (nz + j) - u j) := by
  rw [parameter_vector, List.range_add, List.map_append, List.map_map,
    range_product, zero_ma, mupa_sub,
    show List.replicate nz (0 : Int) = (List.range nz).map (fun _ => (0 : Int))
      from by simp [List.map_const'],
    List.zipWith_append _ _ _ _ _ (by simp),
    zipWith_map_same, zipWith_map_same]
  simp [Function.comp]

/-- Vanishing of a two-block component list, componentwise. -/
lemma zero_union_set_split (nz d : Nat) (f g : Nat → Int) :
    zero_union_set ((List.range nz).map f ++ (List.range d).map g) = true ↔
      ((∀ i < nz, f i = 0) ∧ ∀ j < d, g j = 0) := by
  simp [zero_union_set, List.all_append, List.all_eq_true, List.mem_range]

/-- Nonnegativity of a two-block component list, componentwise. -/
lemma nonneg_union_set_split (nz d : Nat) (f g : Nat → Int) :
    nonneg_union_set ((List.range nz).map f ++ (List.range d).map g) = true ↔
      ((∀ i < nz, 0 ≤ f i) ∧ ∀ j < d, 0 ≤ g j) := by
  simp [nonneg_union_set, List.all_append, List.all_eq_true, List.mem_range]

/-- C9 (amended): for a band with `d` members and `n ≥ d` parameters,
the four builders constrain the band's `d` schedule values against the
last `d` parameters — by equality, ≥, ≤, or congruence modulo the given
per-dimension sizes — while the leading `n - d` parameters are equated
to zero by `set_schedule_eq` and `set_schedule_modulo` (zero set) but
only bounded (≤ 0 by `set_schedule_ge`, ≥ 0 by `set_schedule_le`) by the
nonnegativity builders; a NULL node propagates as a NULL result. -/
theorem C9_schedule_constraint_sets {α : Type} (b : BandNode α) (n : Nat)
    (p size : Nat → Int) (x : α) (hd : b.d ≤ n) :
    ((set_schedule_eq (some b) n p).map (fun f => f x) = some true ↔
      ((∀ i < n - b.d, p i = 0) ∧
        ∀ j < b.d, b.sched x j = p (n - b.d + j))) ∧
    ((set_schedule_ge (some b) n p).map (fun f => f x) = some true ↔
      ((∀ i < n - b.d, p i ≤ 0) ∧
        ∀ j < b.d, p (n - b.d + j) ≤ b.sched x j)) ∧
    ((set_schedule_le (some b) n p).map (fun f => f x) = some true ↔
      ((∀ i < n - b.d, 0 ≤ p i) ∧
        ∀ j < b.d, b.sched x j ≤ p (n - b.d + j))) ∧
    ((set_schedule_modulo (some b) n p size).map (fun f => f x) = some true ↔
      ((∀ i < n - b.d, p i = 0) ∧
        ∀ j < b.d, b.sched x j % size (n - b.d + j) = p (n - b.d + j))) ∧
    (set_schedule_eq (none : Option (BandNode α)) n p = none ∧
     set_schedule_ge (none : Option (BandNode α)) n p = none ∧
     set_schedule_le (none : Option (BandNode α)) n p = none ∧
     set_schedule_modulo (none : Option (BandNode α)) n p size = none) := by
  have hn : n - b.d + b.d = n := Nat.sub_add_cancel hd
  have hpv : parameter_vector n p = parameter_vector (n - b.d + b.d) p := by
    rw [hn]
  refine ⟨?_, ?_, ?_, ?_, rfl, rfl, rfl, rfl⟩
  · by_cases hn0 : n = 0
    · subst hn0
      have hd0 : b.d = 0 := Nat.le_zero.mp hd
      simp [set_schedule_eq, hd0]
    · rw [set_schedule_eq]
      simp only [if_neg hn0, Option.map_some', Option.some.injEq]
      rw [show band_mupa b x = (List.range b.d).map (b.sched x) from rfl,
        hpv, mupa_sub_split, zero_union_set_split]
      simp [sub_eq_zero, zero_sub, neg_eq_zero]
  · by_cases hn0 : n = 0
    · subst hn0
      have hd0 : b.d = 0 := Nat.le_zero.mp hd
      simp [set_schedule_ge, hd0]
    · rw [set_schedule_ge]
      simp only [if_neg hn0, Option.map_some', Option.some.injEq]
      rw [show band_mupa b x = (List.range b.d).map (b.sched x) from rfl,
        hpv, mupa_sub_split, nonneg_union_set_split]
      simp [sub_nonneg, zero_sub, neg_nonneg]
  · by_cases hn0 : n = 0
    · subst hn0
      have hd0 : b.d = 0 := Nat.le_zero.mp hd
      simp [set_schedule_le, hd0]
    · rw [set_schedule_le]
      simp only [if_neg hn0, Option.map_some', Option.some.injEq]
      rw [show band_mupa b x = (List.range b.d).map (b.sched x) from rfl,
        hpv, mupa_sub_split_rev, nonneg_union_set_split]
      simp [sub_nonneg, sub_zero]
  · by_cases hn0 : n = 0
    · subst hn0
      have hd0 : b.d = 0 := Nat.le_zero.mp hd
      simp [set_schedule_modulo, hd0]
    · rw [set_schedule_modulo]
      simp only [if_neg hn0, Option.map_some', Option.some.injEq]
      have hmod : mupa_mod (band_mupa b x)
          ((List.range b.d).map (fun j => size (n - b.d + j))) =
          (List.range b.d).map (fun j => b.sched x j % size (n - b.d + j)) := by
        rw [show band_mupa b x = (List.range b.d).map (b.sched x) from rfl,
          mupa_mod, zipWith_map_same]
      rw [hmod, hpv, mupa_sub_split, zero_union_set_split]
      simp [sub_eq_zero, zero_sub, neg_eq_zero]

/-- A one-member band on the integer line whose schedule is the
identity. -/
def bC9 : BandNode Int := ⟨1, fun x _ => x⟩

/-- A parameter valuation whose leading parameter is -5. -/
def pC9 : Nat → Int := fun i => if i = 0 then -5 else 0

/-- C9 counterexample: with two parameters and a one-member band, the
point 7 lies in the set built by `set_schedule_ge` although the leading
parameter is -5, not 0 — `set_schedule_ge` only bounds the leading
parameters (0 - p ≥ 0), it does not equate them to zero as the claim
states for all four builders. -/
theorem C9_leading_param_counterexample :
    (set_schedule_ge (some bC9) 2 pC9).map (fun f => f 7) = some true ∧
    pC9 0 = -5 ∧ pC9 0 ≠ 0 := by decide

/-- Witness for C9's amended theorem at the concrete band `bC9`. -/
theorem C9_schedule_constraint_sets_witness :
    (set_schedule_eq (some bC9) 2 (fun i => if i = 0 then 0 else 3)).map
      (fun f => f 3) = some true := by
  have h := C9_schedule_constraint_sets bC9 2
    (fun i => if i = 0 then 0 else 3) (fun _ => 1) (3 : Int) (by decide)
  exact h.1.mpr (by decide)

/-! ## C4: generated levels -/

/-- The level stored on a generated module is the loop index. -/
lemma module_of_level_level (g : GroupModel) (two_level read : Bool)
    (i : Nat) : (module_of_level g two_level read i).level = i := rfl

/-- The filter flag stored on a generated module. -/
lemma module_of_level_is_filter (g : GroupModel) (two_level read : Bool)
    (i : Nat) :
    (module_of_level g two_level read i).is_filter =
      classify_is_filter i g.io_level := rfl

/-- The copy-in loop is `io_level` down to 1. -/
lemma levels_desc_eq (L : Nat) :
    levels_desc L = (List.range' 1 L).reverse := by
  rw [List.reverse_range', levels_desc]
  exact List.map_congr_left (fun a _ => by omega)

/-- The copy-out loop is 1 up to `io_level`. -/
lemma levels_asc_eq (L : Nat) : levels_asc L = List.range' 1 L := by
  rw [List.range'_eq_map_range, levels_asc]
  exact List.map_congr_left (fun a _ => by omega)

/-- Keeping the levels at or above `a` in `[1, L]` leaves `[a, L]`. -/
lemma filter_le_range' (a L : Nat) (ha : 1 ≤ a) :
    (List.range' 1 L).filter (fun i => decide (a ≤ i)) =
      List.range' a (L + 1 - a) := by
  by_cases hle : a - 1 ≤ L
  · have hsplit : List.range' 1 (a - 1) ++ List.range' a (L - (a - 1)) =
        List.range' 1 L := by
      have h := List.range'_append 1 (a - 1) (L - (a - 1)) 1
      rw [show 1 + 1 * (a - 1) = a by omega,
        show L - (a - 1) + (a - 1) = L by omega] at h
      exact h
    rw [← hsplit, List.filter_append]
    have h1 : (List.range' 1 (a - 1)).filter (fun i => decide (a ≤ i)) = [] := by
      refine List.filter_eq_nil_iff.mpr (fun m hm => ?_)
      have := List.mem_range'_1.mp hm
      simp only [decide_eq_true_eq]
      omega
    have h2 : (List.range' a (L - (a - 1))).filter (fun i => decide (a ≤ i)) =
        List.range' a (L - (a - 1)) := by
      refine List.filter_eq_self.mpr (fun m hm => ?_)
      have := List.mem_range'_1.mp hm
      simp only [decide_eq_true_eq]
      omega
    rw [h1, h2, List.nil_append, show L + 1 - a = L - (a - 1) by omega]
  · have h1 : (List.range' 1 L).filter (fun i => decide (a ≤ i)) = [] := by
      refine List.filter_eq_nil_iff.mpr (fun m hm => ?_)
      have := List.mem_range'_1.mp hm
      simp only [decide_eq_true_eq]
      omega
    rw [h1, show L + 1 - a = 0 by omega]
    rfl

/-- The innermost level is 1 or 2, hence positive. -/
lemma innermost_level_pos (g : GroupModel) : 1 ≤ innermost_level g := by
  rw [innermost_level]
  split <;> omega

/-- The levels of the modules produced by a generation pass are the loop
levels that survive the `innermost ≤ i` guard. -/
lemma map_level_filterMap (g : GroupModel) (two_level read : Bool)
    (ls : List Nat) :
    ((ls.filterMap (fun i =>
        if innermost_level g ≤ i then
          some (module_of_level g two_level read i)
        else none)).map (fun m => m.level)) =
      ls.filter (fun i => decide (innermost_level g ≤ i)) := by
  induction ls with
  | nil => rfl
  | cons a ls ih =>
    by_cases h : innermost_level g ≤ a
    · simp [List.filterMap_cons, h, module_of_level_level, ih]
    · simp [List.filterMap_cons, h, ih]

/-- Membership in a generation pass comes from a guarded level. -/
lemma mem_gen_filterMap (g : GroupModel) (two_level read : Bool)
    (ls : List Nat) (m : HWModule)
    (hm : m ∈ ls.filterMap (fun i =>
        if innermost_level g ≤ i then
          some (module_of_level g two_level read i)
        else none)) :
    ∃ i ∈ ls, innermost_level g ≤ i ∧ m = module_of_level g two_level read i := by
  rw [List.mem_filterMap] at hm
  obtain ⟨i, hi, hsome⟩ := hm
  by_cases h : innermost_level g ≤ i
  · rw [if_pos h, Option.some.injEq] at hsome
    exact ⟨i, hi, h, hsome.symm⟩
  · rw [if_neg h] at hsome
    exact absurd hsome (by simp)

/-- The 3-level scenario group of the specification: interior I/O (so
the chain reaches level 1), external array, tiles present at levels 1
and 3 only. -/
def tileC4 : Tile := ⟨4, 2, [8, 16]⟩

/-- Scenario group for C4. -/
def gC4 : GroupModel :=
  { group_type := GroupType.io, io_type := IOType.int, dir := [1, 0],
    refs := [], io_level := 3, space_dim := 3,
    io_buffers := [⟨some tileC4, 1⟩, ⟨none, 1⟩, ⟨some tileC4, 1⟩],
    n_lane := 1, array_type := ArrayType.ext,
    pe_io_dir := IODir.null, array_io_dir := IODir.null }

/-- C4: for every group and direction for which `is_module_valid` holds,
the generated modules cover exactly one module per level over the
contiguous range `[innermost, outermost]` (outermost first for copy-in,
innermost first for copy-out) and none outside it; a generated module's
filter flag is false exactly at the outermost level; and in the 3-level
scenario (interior I/O, external array, two-level buffering on, tiles at
levels 1 and 3 only) copy-in produces exactly three modules with
`is_buffer` true at levels 1 and 3, false at level 2, and `is_filter`
false only at level 3. -/
theorem C4_io_module_levels (g : GroupModel) (w : OverlapWorld)
    (two_level : Bool) :
    (is_module_valid g w true = isl_bool_true →
      ((sa_io_module_gen g w two_level true false).map (fun m => m.level) =
        (List.range' (innermost_level g)
          (g.io_level + 1 - innermost_level g)).reverse ∧
       ∀ m ∈ sa_io_module_gen g w two_level true false,
         (m.is_filter = false ↔ m.level = g.io_level))) ∧
    (is_module_valid g w false = isl_bool_true →
      ((sa_io_module_gen g w two_level false true).map (fun m => m.level) =
        List.range' (innermost_level g)
          (g.io_level + 1 - innermost_level g) ∧
       ∀ m ∈ sa_io_module_gen g w two_level false true,
         (m.is_filter = false ↔ m.level = g.io_level))) ∧
    sa_io_module_gen_in gC4 true =
      [⟨ModuleType.io, true, 3, false, true⟩,
       ⟨ModuleType.io, true, 2, true, false⟩,
       ⟨ModuleType.io, true, 1, true, true⟩] := by
  refine ⟨?_, ?_, by decide⟩
  · intro h
    have hgen : sa_io_module_gen g w two_level true false =
        sa_io_module_gen_in g two_level := by
      rw [sa_io_module_gen, if_pos ⟨rfl, by rw [h]; decide⟩,
        if_neg (by simp), List.append_nil]
    rw [hgen]
    constructor
    · rw [sa_io_module_gen_in, map_level_filterMap, levels_desc_eq,
        List.filter_reverse, filter_le_range' _ _ (innermost_level_pos g)]
    · intro m hm
      rw [sa_io_module_gen_in] at hm
      obtain ⟨i, _, _, hmod⟩ := mem_gen_filterMap g two_level true _ m hm
      subst hmod
      rw [module_of_level_is_filter, module_of_level_level,
        classify_is_filter]
      simp
  · intro h
    have hgen : sa_io_module_gen g w two_level false true =
        sa_io_module_gen_out g two_level := by
      rw [sa_io_module_gen, if_neg (by simp),
        if_pos ⟨rfl, by rw [h]; decide⟩, List.nil_append]
    rw [hgen]
    constructor
    · rw [sa_io_module_gen_out, map_level_filterMap, levels_asc_eq,
        filter_le_range' _ _ (innermost_level_pos g)]
    · intro m hm
      rw [sa_io_module_gen_out] at hm
      obtain ⟨i, _, _, hmod⟩ := mem_gen_filterMap g two_level false _ m hm
      subst hmod
      rw [module_of_level_is_filter, module_of_level_level,
        classify_is_filter]
      simp

/-- The internal group and world used to witness C4's two validity
hypotheses. -/
def gInt : GroupModel :=
  { group_type := GroupType.io, io_type := IOType.ext, dir := [1],
    refs := [⟨[⟨IOType.ext, [1], DepType.raw⟩]⟩],
    io_level := 2, space_dim := 2,
    io_buffers := [⟨none, 1⟩, ⟨none, 1⟩], n_lane := 1,
    array_type := ArrayType.ext,
    pe_io_dir := IODir.null, array_io_dir := IODir.null }

/-- A world on which the overlap analyzer reports no overlap, in either
direction, for `gInt`. -/
def wNE : OverlapWorld :=
  { prefixSched := some [], lt := some [],
    tagged_dep_flow := some [(0, 0)], tagged := some [(0, 0)],
    accessRel := some [(0, 0)], groupRefDom := some [0],
    context := some [], extUniv := [(0, 0)] }

/-- Witness for C4: an internal group valid in both directions, two
levels, exterior I/O (innermost = 2), so exactly one module at level 2
per direction. -/
theorem C4_io_module_levels_witness :
    (sa_io_module_gen gInt wNE true true false).map (fun m => m.level) =
      [2] ∧
    (sa_io_module_gen gInt wNE true false true).map (fun m => m.level) =
      [2] := by
  have h1 := (C4_io_module_levels gInt wNE true).1 (by decide)
  have h2 := (C4_io_module_levels gInt wNE true).2.1 (by decide)
  exact ⟨h1.1.trans (by decide), h2.1.trans (by decide)⟩
